import Mathlib

/-!
# Verification of the example wpull seesaw pipeline (`pipeline.py`)

A shallow embedding of the per-item crawl pipeline stages defined in
`pipeline.py`: the sanitization of item names, the `CheckIP` reachability
guard and its cross-item counter, the `PrepareDirectories` directory stager,
the `MoveFiles` finalizer, the `WgetArgs` argument builder, and the
`stats_id_function` extra-metadata hook.  Filesystem effects are modelled by
an explicit `FS` state record; hostname resolution is an oracle function
passed as a parameter; the per-run timestamp is likewise a parameter.
-/

/-! ## Item-name sanitization (`PrepareDirectories.process`, lines 106-108)

`item_name.replace(':', '_').replace('/', '_')` — Python `str.replace` with a
single-character pattern replaces every occurrence of that character, i.e. it
is a character map over the string. -/

/-- Replace every occurrence of the character `a` by `b` in `s`
(Python `s.replace(a, b)` for a one-character pattern). -/
def replaceChar (s : String) (a b : Char) : String :=
  String.mk (s.data.map fun c => if c = a then b else c)

/-- Sanitization: `escaped_item_name = item_name.replace(':', '_').replace('/', '_')`. -/
def escapeItemName (s : String) : String :=
  replaceChar (replaceChar s ':' '_') '/' '_'

/-! ## The reachability guard (`CheckIP`, lines 69-97)

The six hostnames are resolved with `socket.gethostbyname` and the results
are collected into a Python `set`; resolution is modelled by an oracle
`resolve : String → α` for an arbitrary address type with decidable
equality, and the set of results by `List.dedup`. -/

/-- The six fixed hostnames queried by `CheckIP.process`. -/
def hostnames : List String :=
  ["twitter.com", "facebook.com", "youtube.com", "microsoft.com",
   "icanhas.cheezburger.com", "archiveteam.org"]

/-- The `ip_set` built in `CheckIP.process`: the set of addresses obtained by
resolving the six hostnames, as a deduplicated list. -/
def ipSet {α : Type} [DecidableEq α] (resolve : String → α) : List α :=
  (hostnames.map resolve).dedup

/-- The check block of `CheckIP.process` (lines 75-91): when the counter is
`≤ 0`, resolve the hostnames and raise iff `len(ip_set) != 6`. -/
def checkIPCheck {α : Type} [DecidableEq α] (resolve : String → α)
    (counter : Int) : Except Unit Unit :=
  if counter ≤ 0 then
    if (ipSet resolve).length ≠ 6 then .error () else .ok ()
  else .ok ()

/-- The counter update of `CheckIP.process` (lines 94-97): reset to 10 when
`counter ≤ 0` (only reached when the check succeeded), else decrement. -/
def checkIPUpdate (counter : Int) : Int :=
  if counter ≤ 0 then 10 else counter - 1

/-- One invocation of `CheckIP.process`: run the check block, then (when no
exception was raised) the counter update.  Returns the new counter. -/
def checkIP_process {α : Type} [DecidableEq α] (resolve : String → α)
    (counter : Int) : Except Unit Int :=
  (checkIPCheck resolve counter).map fun _ => checkIPUpdate counter

/-- Counter value seen by the `n`-th invocation (0-indexed) when every
performed check succeeds: `self._counter` starts at `0` (line 72) and each
invocation applies `checkIPUpdate`. -/
def counterSeq : Nat → Int
  | 0 => 0
  | n + 1 => checkIPUpdate (counterSeq n)

/-! ## Filesystem model

`pipeline.py` touches the filesystem through `os.path.isdir`,
`os.path.exists`, `shutil.rmtree`, `os.makedirs`, `open(..., "w")` and
`os.rename`.  The filesystem is a record of regular files (path and content)
and directories (paths); paths are the plain `/`-joined strings the source
builds.  `os.makedirs` is modelled as creating the named directory (its
parents, `data_dir`, pre-exist in every run of the pipeline). -/

/-- A filesystem state: regular files with their content, and directories. -/
structure FS where
  files : List (String × String)
  dirs : List String
deriving DecidableEq, Repr

/-- Holds when `p` lies strictly inside directory `d`: `d ++ "/"` is a prefix of `p`. -/
def underDir (d p : String) : Bool :=
  (d ++ "/").data.isPrefixOf p.data

/-- A regular file exists at `p`. -/
def fileExists (fs : FS) (p : String) : Bool :=
  fs.files.any fun f => f.1 == p

/-- Python `os.path.isdir`. -/
def isDir (fs : FS) (p : String) : Bool :=
  fs.dirs.contains p

/-- Python `os.path.exists`: a file or a directory exists at `p`. -/
def pathExists (fs : FS) (p : String) : Bool :=
  fileExists fs p || isDir fs p

/-- Python `shutil.rmtree d`: remove the directory `d` and everything inside it. -/
def rmtree (fs : FS) (d : String) : FS :=
  { files := fs.files.filter fun f => ! underDir d f.1,
    dirs := fs.dirs.filter fun p => ! (p == d || underDir d p) }

/-- Python `os.makedirs d` (parents assumed existing, see above). -/
def makedirs (fs : FS) (d : String) : FS :=
  { fs with dirs := d :: fs.dirs }

/-- Python `open(p, "w").close()`: create (or truncate) an empty regular file. -/
def createEmptyFile (fs : FS) (p : String) : FS :=
  { fs with files := (p, "") :: fs.files.filter fun f => ! (f.1 == p) }

/-- Python `os.rename src dst`: move the regular file at `src` to `dst`
(replacing any file at `dst`); error when `src` is missing. -/
def renameFile (fs : FS) (src dst : String) : Except String FS :=
  match fs.files.find? (fun f => f.1 == src) with
  | none => .error "FileNotFoundError"
  | some f =>
      .ok { fs with
              files := (dst, f.2) ::
                fs.files.filter fun g => ! (g.1 == src || g.1 == dst) }

/-! ## Item state and the directory stager
(`PrepareDirectories.process`, lines 105-123) -/

/-- The pipeline version string (line 55). -/
def VERSION : String := "20150321.01"

/-- The fields of the seesaw item dictionary that the embedded stages read
or write.  `item_name` and `data_dir` are set before `PrepareDirectories`
runs; the remaining fields are written by it. -/
structure ItemState where
  item_name : String
  data_dir : String
  escaped_item_name : String := ""
  item_dir : String := ""
  warc_file_base : String := ""
deriving DecidableEq, Repr

/-- The name stem `warc_file_base = "%s-%s-%s" % (warc_prefix, escaped_item_name,
time.strftime("%Y%m%d-%H%M%S"))` (lines 118-121); the second-resolution
timestamp string is a parameter. -/
def warcFileBase (warcPrefix escaped timestamp : String) : String :=
  warcPrefix ++ "-" ++ escaped ++ "-" ++ timestamp

/-- Stage `PrepareDirectories.process`: sanitize the item name, remove any
pre-existing `item_dir`, recreate it, derive `warc_file_base` and pre-create
the empty `.warc.gz` file.  Returns the updated item and filesystem. -/
def prepareDirectories (warcPrefix timestamp : String) (item : ItemState)
    (fs : FS) : ItemState × FS :=
  let escaped := escapeItemName item.item_name
  let dirname := item.data_dir ++ "/" ++ escaped
  let fs1 := if isDir fs dirname then rmtree fs dirname else fs
  let fs2 := makedirs fs1 dirname
  let base := warcFileBase warcPrefix escaped timestamp
  let item' := { item with
                   escaped_item_name := escaped, item_dir := dirname,
                   warc_file_base := base }
  (item', createEmptyFile fs2 (dirname ++ "/" ++ base ++ ".warc.gz"))

/-! ## The finalizer (`MoveFiles.process`, lines 130-138) -/

/-- Stage `MoveFiles.process`: raise when the uncompressed
`item_dir/warc_file_base.warc` exists; otherwise rename
`item_dir/warc_file_base.warc.gz` into `data_dir` and remove `item_dir`.
Returns the resulting filesystem together with the raised message, if any;
an exception is raised before any filesystem mutation, so the state comes
back unchanged in that case. -/
def moveFiles (item : ItemState) (fs : FS) : FS × Option String :=
  if pathExists fs (item.item_dir ++ "/" ++ item.warc_file_base ++ ".warc")
  then (fs, some "Please compile wget with zlib support!")
  else
    match renameFile fs
        (item.item_dir ++ "/" ++ item.warc_file_base ++ ".warc.gz")
        (item.data_dir ++ "/" ++ item.warc_file_base ++ ".warc.gz") with
    | .error e => (fs, some e)
    | .ok fs1 => (rmtree fs1 item.item_dir, none)

/-! ## The capture argument builder (`WgetArgs.realize`, lines 162-204)

`realize` substitutes the current item fields into each
`ItemInterpolation("...")`; the substitution is performed directly here.
The wpull executable path (found at process start, lines 34-44) and the
optional `bind_address` global are parameters.  Commented-out arguments of
the source are omitted, as in the running code. -/

/-- Method `WgetArgs.realize`: the full command line for the capture executable. -/
def wgetArgs_realize (wpullExe : String) (bindAddress : Option String)
    (item : ItemState) : List String :=
  ([wpullExe,
    "-nv",
    "--python-script", "examplecity.py",
    "-o", item.item_dir ++ "/wpull.log",
    "--no-check-certificate",
    "--database", item.item_dir ++ "/wpull.db",
    "--delete-after",
    "--no-robots",
    "--no-cookies",
    "--rotate-dns",
    "--recursive", "--level=2",
    "--no-parent",
    "--page-requisites",
    "--span-hosts-allow", "page-requisites,linked-pages",
    "--timeout", "30",
    "--tries", "2",
    "--wait", "0.5",
    "--random-wait",
    "--waitretry", "5",
    "--warc-file", item.item_dir ++ "/" ++ item.warc_file_base,
    "--warc-header", "operator: Archive Team",
    "--warc-header", "examplecity-dld-script-version: " ++ VERSION,
    "--warc-header", "examplecity-user: " ++ item.item_name] ++
   ["http://" ++ item.item_name]) ++
  (match bindAddress with
   | some b => ["--bind-address", b]
   | none => [])

/-! ## Stats extra metadata (`stats_id_function`, lines 151-159)

`PIPELINE_SHA1`, `SCRIPT_SHA1` and `sys.version` are computed once at
process start (lines 146-148); they are parameters of the embedding. -/

/-- The record returned by `stats_id_function`: exactly the three keys
`pipeline_hash`, `script_hash`, `python_version`. -/
structure StatsId where
  pipeline_hash : String
  script_hash : String
  python_version : String
deriving DecidableEq, Repr

/-- Function `stats_id_function(item)`; the `item` argument is received but unused,
exactly as in the source. -/
def stats_id_function (pipelineSha1 scriptSha1 pythonVersion : String)
    (_item : ItemState) : StatsId :=
  { pipeline_hash := pipelineSha1, script_hash := scriptSha1,
    python_version := pythonVersion }

/-! ## The external-process runner (pipeline lines 230-238)

The pipeline configures `WgetDownload(WgetArgs(), max_tries=2,
accept_on_exit_code=[0, 4, 7, 8], ...)`. -/

/-- The `accept_on_exit_code` of the `WgetDownload` stage (line 233). -/
def acceptOnExitCode : List Nat := [0, 4, 7, 8]

/-- The `max_tries` of the `WgetDownload` stage (line 232). -/
def maxTriesConfig : Nat := 2

/-- Modelled from the spec: the retry loop of seesaw's
`WgetDownload`/`ExternalProcess` runner is library code not present under
`src/`; §4.4 "Process Runner" specifies it: capture the exit code of each
invocation; if it is in `accept_exit_codes` the stage succeeds, otherwise
decrement the retry budget and re-invoke from scratch; exhausting the
budget is an item-fatal failure.  `exitCode k` is the exit code of the
`k`-th invocation; the result is the number of invocations performed and
whether the stage succeeded. -/
def runWithTries (exitCode : Nat → Nat) (accept : List Nat) :
    Nat → Nat → Nat × Bool
  | _, 0 => (0, false)
  | k, triesLeft + 1 =>
      if exitCode k ∈ accept then (1, true)
      else
        let rest := runWithTries exitCode accept (k + 1) triesLeft
        (rest.1 + 1, rest.2)

/-- The `WgetDownload` stage as configured in this pipeline: up to
`max_tries = 2` invocations, exit codes `[0, 4, 7, 8]` accepted. -/
def wgetDownload_run (exitCode : Nat → Nat) : Nat × Bool :=
  runWithTries exitCode acceptOnExitCode 0 maxTriesConfig

/-! ## Helper lemmas -/

theorem isPrefixOf_append_self (l t : List Char) :
    l.isPrefixOf (l ++ t) = true := by
  induction l with
  | nil => simp [List.isPrefixOf]
  | cons a as ih => simp [List.isPrefixOf, ih]

theorem isPrefixOf_length_le :
    ∀ l₁ l₂ : List Char, l₁.isPrefixOf l₂ = true → l₁.length ≤ l₂.length
  | [], _, _ => Nat.zero_le _
  | _ :: _, [], h => by simp [List.isPrefixOf] at h
  | a :: as, b :: bs, h => by
      simp only [List.isPrefixOf, Bool.and_eq_true] at h
      simpa using isPrefixOf_length_le as bs h.2

/-- A directory never lies strictly inside itself. -/
theorem underDir_self (d : String) : underDir d d = false := by
  apply Bool.eq_false_iff.2
  intro h
  have hle := isPrefixOf_length_le _ _ h
  simp [String.data_append] at hle

/-- A path one component below `d` lies inside `d`. -/
theorem underDir_append (d x : String) : underDir d (d ++ "/" ++ x) = true := by
  unfold underDir
  rw [String.data_append]
  exact isPrefixOf_append_self _ _

/-- A path built from two suffix pieces below `d` lies inside `d`. -/
theorem underDir_append₂ (d x y : String) :
    underDir d (d ++ "/" ++ x ++ y) = true := by
  have h : d ++ "/" ++ x ++ y = (d ++ "/") ++ (x ++ y) := by
    rw [String.append_assoc]
  unfold underDir
  rw [h, String.data_append]
  exact isPrefixOf_append_self _ _

theorem map_id_of_fixed {f : Char → Char} :
    ∀ l : List Char, (∀ c ∈ l, f c = c) → l.map f = l
  | [], _ => rfl
  | a :: as, h => by
      simp only [List.map_cons, h a (List.mem_cons_self a as),
        map_id_of_fixed as fun c hc => h c (List.mem_cons_of_mem a hc)]

/-- Sanitization fixes names free of colons and slashes. -/
theorem escapeItemName_eq_self {s : String}
    (h : ∀ c ∈ s.data, c ≠ ':' ∧ c ≠ '/') : escapeItemName s = s := by
  cases s with
  | mk l =>
      simp only [escapeItemName, replaceChar, List.map_map]
      have : l.map ((fun c => if c = '/' then '_' else c) ∘
          fun c => if c = ':' then '_' else c) = l := by
        apply map_id_of_fixed
        intro c hc
        have hc' := h c hc
        simp [Function.comp, hc'.1, hc'.2]
      rw [this]

/-- The `ip_set` never holds more than six addresses. -/
theorem ipSet_length_le {α : Type} [DecidableEq α] (resolve : String → α) :
    (ipSet resolve).length ≤ 6 := by
  have h := (List.dedup_sublist (hostnames.map resolve)).length_le
  simpa [hostnames] using h

/-- Closed form of the guard counter, assuming all checks succeed. -/
theorem counterSeq_closed (n : Nat) :
    counterSeq n = (11 - (n : Int) % 11) % 11 := by
  induction n with
  | zero => rfl
  | succ n ih =>
      show checkIPUpdate (counterSeq n) = _
      rw [ih]
      unfold checkIPUpdate
      split_ifs with h
      · push_cast
        omega
      · push_cast
        omega

theorem runWithTries_succ (e : Nat → Nat) (a : List Nat) (k n : Nat) :
    runWithTries e a k (n + 1) =
      if e k ∈ a then (1, true)
      else ((runWithTries e a (k + 1) n).1 + 1,
            (runWithTries e a (k + 1) n).2) := by
  rfl

/-! ## Claims -/

/-- C9.  For every item name, the sanitized `escaped_item_name` contains no
path-separator character `/` and no colon `:`, and sanitization is a
deterministic function of the item name. -/
theorem escapeItemName_no_separators :
    ∀ s : String, (∀ c ∈ (escapeItemName s).data, c ≠ '/' ∧ c ≠ ':') ∧
      (∀ t : String, s = t → escapeItemName s = escapeItemName t) := by
  intro s
  refine ⟨?_, fun t h => by rw [h]⟩
  intro c hc
  simp only [escapeItemName, replaceChar, List.map_map, List.mem_map,
    Function.comp] at hc
  obtain ⟨a, -, ha⟩ := hc
  subst ha
  by_cases h₁ : a = ':'
  · simp [h₁]
  · rw [if_neg h₁]
    by_cases h₂ : a = '/'
    · simp [h₂]
    · rw [if_neg h₂]
      exact ⟨h₂, h₁⟩

/-- Witness for C9 at the item name `"user:42/www"`. -/
theorem escapeItemName_no_separators_witness :
    (∀ c ∈ (escapeItemName "user:42/www").data, c ≠ '/' ∧ c ≠ ':') ∧
      escapeItemName "user:42/www" = escapeItemName "user:42/www" :=
  ⟨(escapeItemName_no_separators "user:42/www").1,
   (escapeItemName_no_separators "user:42/www").2 "user:42/www" rfl⟩

/-- C10.  `stats_id_function` is constant across items: it returns the record
holding exactly the pipeline SHA-1, the control-script SHA-1 and the
interpreter version — never reading the item argument. -/
theorem stats_id_function_const (p s v : String) (item₁ item₂ : ItemState) :
    stats_id_function p s v item₁ =
      { pipeline_hash := p, script_hash := s, python_version := v } ∧
    stats_id_function p s v item₁ = stats_id_function p s v item₂ :=
  ⟨rfl, rfl⟩

/-- C8, counterexample: the distinct item names `"a:b"` and `"a/b"` sanitize
to the same `escaped_item_name`, so sanitization is not collision-resistant
and the two items would share `item_dir = data_dir/"a_b"`. -/
theorem escapeItemName_collision :
    escapeItemName "a:b" = escapeItemName "a/b" ∧ "a:b" ≠ "a/b" := by
  constructor
  · rfl
  · decide

/-- C8, amended: sanitization is collision-resistant on item names free of
colon and slash characters (there it is the identity); distinct names
containing such characters may collide. -/
theorem escapeItemName_inj_clean (s₁ s₂ : String)
    (h₁ : ∀ c ∈ s₁.data, c ≠ ':' ∧ c ≠ '/')
    (h₂ : ∀ c ∈ s₂.data, c ≠ ':' ∧ c ≠ '/') :
    escapeItemName s₁ = escapeItemName s₂ ↔ s₁ = s₂ := by
  rw [escapeItemName_eq_self h₁, escapeItemName_eq_self h₂]

/-- Witness for the amended C8 at the clean names `"a.b"` and `"c.d"`. -/
theorem escapeItemName_inj_clean_witness :
    escapeItemName "a.b" = escapeItemName "c.d" ↔ "a.b" = "c.d" :=
  escapeItemName_inj_clean "a.b" "c.d" (by decide) (by decide)

/-- C7, counterexample: two Directory Stager runs for the same item name
whose second-resolution timestamps coincide (immediately-repeated attempts
within one second) produce the *same* `warc_file_base`, so the timestamp
does not always guarantee a fresh name. -/
theorem warcFileBase_same_second :
    ¬ (∀ ts₁ ts₂ : String, ∀ fs₁ fs₂ : FS,
        (prepareDirectories "examplecity" ts₁
            { item_name := "example.org", data_dir := "data" } fs₁
          ).1.warc_file_base ≠
        (prepareDirectories "examplecity" ts₂
            { item_name := "example.org", data_dir := "data" } fs₂
          ).1.warc_file_base) :=
  fun h =>
    h "20150321-000000" "20150321-000000" { files := [], dirs := [] }
      { files := [], dirs := [] } rfl

/-- C7, amended: `warc_file_base` is `prefix-escaped_item_name-timestamp`
with a second-resolution timestamp, and two Directory Stager runs for the
same item name produce different `warc_file_base` values exactly when their
timestamps differ. -/
theorem warcFileBase_fresh_iff (wp ts₁ ts₂ : String) (item : ItemState)
    (fs₁ fs₂ : FS) :
    (prepareDirectories wp ts₁ item fs₁).1.warc_file_base =
      warcFileBase wp (escapeItemName item.item_name) ts₁ ∧
    ((prepareDirectories wp ts₁ item fs₁).1.warc_file_base =
        (prepareDirectories wp ts₂ item fs₂).1.warc_file_base ↔ ts₁ = ts₂) := by
  refine ⟨rfl, ?_⟩
  show warcFileBase wp (escapeItemName item.item_name) ts₁ =
    warcFileBase wp (escapeItemName item.item_name) ts₂ ↔ ts₁ = ts₂
  constructor
  · intro h
    have h' := congrArg String.data h
    simp only [warcFileBase, String.data_append, List.append_assoc,
      List.append_cancel_left_eq] at h'
    exact String.ext h'
  · intro h
    rw [h]

/-- C3.  The capture stage (`max_tries = 2`,
`accept_on_exit_code = [0, 4, 7, 8]`): an accepted first exit code gives
success after exactly one invocation; unaccepted exit codes on the first two
invocations exhaust the retry budget — exactly two invocations — and the
stage fails. -/
theorem wgetDownload_tries (exitCode : Nat → Nat) :
    (exitCode 0 ∈ acceptOnExitCode → wgetDownload_run exitCode = (1, true)) ∧
    (exitCode 0 ∉ acceptOnExitCode → exitCode 1 ∉ acceptOnExitCode →
      wgetDownload_run exitCode = (2, false)) := by
  constructor
  · intro h
    show runWithTries exitCode acceptOnExitCode 0 (1 + 1) = (1, true)
    rw [runWithTries_succ, if_pos h]
  · intro h₀ h₁
    show runWithTries exitCode acceptOnExitCode 0 (1 + 1) = (2, false)
    rw [runWithTries_succ, if_neg h₀, runWithTries_succ, if_neg h₁]
    rfl

/-- Witness for C3: an executable exiting with the accepted code 4 succeeds
in one invocation; one always exiting 1 runs exactly twice and fails. -/
theorem wgetDownload_tries_witness :
    wgetDownload_run (fun _ => 4) = (1, true) ∧
      wgetDownload_run (fun _ => 1) = (2, false) :=
  ⟨(wgetDownload_tries fun _ => 4).1 (by decide),
   (wgetDownload_tries fun _ => 1).2 (by decide) (by decide)⟩

/-- C1.  When the Reachability Guard actually performs its check
(`counter ≤ 0`), it raises iff the set of addresses obtained from the six
fixed hostnames has cardinality strictly below 6, and passes (resetting the
counter to 10) when the cardinality is exactly 6. -/
theorem checkIP_guard {α : Type} [DecidableEq α] (resolve : String → α)
    (c : Int) (hc : c ≤ 0) :
    (checkIP_process resolve c = .error () ↔ (ipSet resolve).length < 6) ∧
    ((ipSet resolve).length = 6 → checkIP_process resolve c = .ok 10) := by
  have hle := ipSet_length_le resolve
  constructor
  · by_cases h : (ipSet resolve).length = 6
    · simp [checkIP_process, checkIPCheck, Except.map, hc, h]
    · simp only [checkIP_process, checkIPCheck, if_pos hc, if_pos h]
      simp [Except.map]
      omega
  · intro h
    simp [checkIP_process, checkIPCheck, checkIPUpdate, Except.map, hc, h]

/-- Witness for C1: a collapsing resolver (all hostnames map to one
address) makes the check raise; an injective resolver (each hostname maps
to itself) makes it pass and reset the counter to 10. -/
theorem checkIP_guard_witness :
    checkIP_process (fun _ => (0 : Nat)) 0 = .error () ∧
      checkIP_process (fun s => s) 0 = .ok 10 :=
  ⟨(checkIP_guard (fun _ => (0 : Nat)) 0 (by decide)).1.mpr (by decide),
   (checkIP_guard (fun s => s) 0 (by decide)).2 (by decide)⟩

/-- C2.  The Reachability Guard's counter starts at 0 (so the very first
invocation checks), a successful check resets it to 10, an invocation with
a positive counter decrements it and skips the check, and therefore — the
checking invocations being those with `counter ≤ 0` — the resolution runs
exactly once per interval: at invocation `n` iff `n % 11 = 0`, i.e. once
every 10 skipped items. -/
theorem checkIP_cadence :
    counterSeq 0 = 0 ∧
    (∀ n, counterSeq n ≤ 0 → counterSeq (n + 1) = 10) ∧
    (∀ n, 0 < counterSeq n → counterSeq (n + 1) = counterSeq n - 1) ∧
    (∀ n, counterSeq n ≤ 0 ↔ n % 11 = 0) := by
  refine ⟨rfl, ?_, ?_, ?_⟩
  · intro n h
    show checkIPUpdate (counterSeq n) = 10
    rw [checkIPUpdate, if_pos h]
  · intro n h
    show checkIPUpdate (counterSeq n) = counterSeq n - 1
    rw [checkIPUpdate, if_neg (by omega)]
  · intro n
    rw [counterSeq_closed]
    omega

/-- Witness for C2: the first invocation checks and resets the counter to
10, the second decrements it, and invocation 11 checks again. -/
theorem checkIP_cadence_witness :
    counterSeq 1 = 10 ∧ counterSeq 2 = counterSeq 1 - 1 ∧
      (counterSeq 11 ≤ 0 ↔ 11 % 11 = 0) :=
  ⟨checkIP_cadence.2.1 0 (by decide),
   checkIP_cadence.2.2.1 1 (by decide),
   checkIP_cadence.2.2.2 11⟩

/-- C6, counterexample: for the item name `"user:42"` (sanitized form
`"user_42"`), the realized argument list carries the header built from the
*raw* item name and no argument carrying the sanitized identifier — the
embedded identifier is `item_name`, not `escaped_item_name`. -/
theorem wgetArgs_raw_name :
    ("examplecity-user: " ++ escapeItemName "user:42") ∉
      wgetArgs_realize "wpull" none
        { item_name := "user:42", data_dir := "data",
          escaped_item_name := "user_42", item_dir := "data/user_42",
          warc_file_base := "examplecity-user_42-20150321-000000" } ∧
    "examplecity-user: user:42" ∈
      wgetArgs_realize "wpull" none
        { item_name := "user:42", data_dir := "data",
          escaped_item_name := "user_42", item_dir := "data/user_42",
          warc_file_base := "examplecity-user_42-20150321-000000" } := by
  constructor
  · decide
  · decide

/-- C6, amended: for any item state, the realized capture arguments contain
the warc target `--warc-file item_dir/warc_file_base` and the three
provenance headers: the operator tag, the pipeline version string, and the
*raw* item identifier `item_name` (not its sanitized form). -/
theorem wgetArgs_provenance (wpullExe : String) (bind : Option String)
    (item : ItemState) :
    (wgetArgs_realize wpullExe bind item)[28]? = some "--warc-file" ∧
    (wgetArgs_realize wpullExe bind item)[29]? =
      some (item.item_dir ++ "/" ++ item.warc_file_base) ∧
    (wgetArgs_realize wpullExe bind item)[30]? = some "--warc-header" ∧
    (wgetArgs_realize wpullExe bind item)[31]? =
      some "operator: Archive Team" ∧
    (wgetArgs_realize wpullExe bind item)[32]? = some "--warc-header" ∧
    (wgetArgs_realize wpullExe bind item)[33]? =
      some ("examplecity-dld-script-version: " ++ VERSION) ∧
    (wgetArgs_realize wpullExe bind item)[34]? = some "--warc-header" ∧
    (wgetArgs_realize wpullExe bind item)[35]? =
      some ("examplecity-user: " ++ item.item_name) :=
  ⟨rfl, rfl, rfl, rfl, rfl, rfl, rfl, rfl⟩

/-- Core of the Directory Stager argument: recreating `dn` and pre-creating
the single file `fp` inside a filesystem that holds nothing under `dn`
leaves exactly that file (and no directory) under `dn`. -/
theorem stage_core (dn fp : String) (fs1 : FS)
    (hfiles : ∀ f ∈ fs1.files, underDir dn f.1 = false)
    (hdirs : ∀ d ∈ fs1.dirs, underDir dn d = false)
    (hfp : underDir dn fp = true) :
    isDir (createEmptyFile (makedirs fs1 dn) fp) dn = true ∧
    (fp, "") ∈ (createEmptyFile (makedirs fs1 dn) fp).files ∧
    (∀ f ∈ (createEmptyFile (makedirs fs1 dn) fp).files,
      underDir dn f.1 = true → f = (fp, "")) ∧
    (∀ d ∈ (createEmptyFile (makedirs fs1 dn) fp).dirs,
      underDir dn d = false) := by
  refine ⟨by simp [isDir, createEmptyFile, makedirs], ?_, ?_, ?_⟩
  · simp [createEmptyFile, makedirs]
  · intro f hf hu
    simp only [createEmptyFile, makedirs, List.mem_cons] at hf
    rcases hf with hf | hf
    · exact hf
    · have hmem := (List.mem_filter.1 hf).1
      rw [hfiles f hmem] at hu
      cases hu
  · intro d hd
    simp only [createEmptyFile, makedirs, List.mem_cons] at hd
    rcases hd with rfl | hd
    · exact underDir_self d
    · exact hdirs d hd

/-- C5.  After the Directory Stager runs, `item_dir` is
`data_dir/escaped_item_name`, that directory exists and contains exactly
one entry — the pre-created zero-byte `warc_file_base.warc.gz` — and no
content of a pre-existing directory at that path survives.  The hypothesis
states filesystem well-formedness: paths only exist underneath existing
directories. -/
theorem prepareDirectories_clean (wp ts : String) (item : ItemState)
    (fs : FS)
    (hwf : isDir fs (item.data_dir ++ "/" ++ escapeItemName item.item_name)
        = false →
      (∀ f ∈ fs.files,
        underDir (item.data_dir ++ "/" ++ escapeItemName item.item_name) f.1
          = false) ∧
      (∀ d ∈ fs.dirs,
        underDir (item.data_dir ++ "/" ++ escapeItemName item.item_name) d
          = false)) :
    (prepareDirectories wp ts item fs).1.item_dir =
      item.data_dir ++ "/" ++ escapeItemName item.item_name ∧
    isDir (prepareDirectories wp ts item fs).2
      (prepareDirectories wp ts item fs).1.item_dir = true ∧
    ((prepareDirectories wp ts item fs).1.item_dir ++ "/" ++
        (prepareDirectories wp ts item fs).1.warc_file_base ++ ".warc.gz",
      "") ∈ (prepareDirectories wp ts item fs).2.files ∧
    (∀ f ∈ (prepareDirectories wp ts item fs).2.files,
      underDir (prepareDirectories wp ts item fs).1.item_dir f.1 = true →
        f = ((prepareDirectories wp ts item fs).1.item_dir ++ "/" ++
          (prepareDirectories wp ts item fs).1.warc_file_base ++ ".warc.gz",
          "")) ∧
    (∀ d ∈ (prepareDirectories wp ts item fs).2.dirs,
      underDir (prepareDirectories wp ts item fs).1.item_dir d = false) := by
  refine ⟨rfl, ?_⟩
  have hfp : underDir (item.data_dir ++ "/" ++ escapeItemName item.item_name)
      (item.data_dir ++ "/" ++ escapeItemName item.item_name ++ "/" ++
        warcFileBase wp (escapeItemName item.item_name) ts ++ ".warc.gz")
      = true :=
    underDir_append₂ _ _ _
  by_cases hd : isDir fs (item.data_dir ++ "/" ++ escapeItemName
      item.item_name) = true
  · have core := stage_core
      (item.data_dir ++ "/" ++ escapeItemName item.item_name)
      (item.data_dir ++ "/" ++ escapeItemName item.item_name ++ "/" ++
        warcFileBase wp (escapeItemName item.item_name) ts ++ ".warc.gz")
      (rmtree fs (item.data_dir ++ "/" ++ escapeItemName item.item_name))
      (fun f hf => by
        have := (List.mem_filter.1 hf).2
        simpa using this)
      (fun d hdm => by
        have := (List.mem_filter.1 hdm).2
        simp only [Bool.not_eq_eq_eq_not, Bool.not_true,
          Bool.or_eq_false_iff] at this
        exact this.2)
      hfp
    simpa [prepareDirectories, hd] using core
  · have hd' : isDir fs (item.data_dir ++ "/" ++ escapeItemName
        item.item_name) = false := by
      simpa using hd
    have core := stage_core
      (item.data_dir ++ "/" ++ escapeItemName item.item_name)
      (item.data_dir ++ "/" ++ escapeItemName item.item_name ++ "/" ++
        warcFileBase wp (escapeItemName item.item_name) ts ++ ".warc.gz")
      fs (hwf hd').1 (hwf hd').2 hfp
    simpa [prepareDirectories, hd'] using core

/-- Witness for C5: staging item `"example.org"` in an empty filesystem
creates `data/example.org` holding exactly the pre-created empty
`.warc.gz` file. -/
theorem prepareDirectories_clean_witness :
    isDir (prepareDirectories "examplecity" "20150321-000000"
        { item_name := "example.org", data_dir := "data" }
        { files := [], dirs := [] }).2
      (prepareDirectories "examplecity" "20150321-000000"
        { item_name := "example.org", data_dir := "data" }
        { files := [], dirs := [] }).1.item_dir = true ∧
    ((prepareDirectories "examplecity" "20150321-000000"
        { item_name := "example.org", data_dir := "data" }
        { files := [], dirs := [] }).1.item_dir ++ "/" ++
      (prepareDirectories "examplecity" "20150321-000000"
        { item_name := "example.org", data_dir := "data" }
        { files := [], dirs := [] }).1.warc_file_base ++ ".warc.gz", "") ∈
      (prepareDirectories "examplecity" "20150321-000000"
        { item_name := "example.org", data_dir := "data" }
        { files := [], dirs := [] }).2.files :=
  ⟨(prepareDirectories_clean "examplecity" "20150321-000000"
      { item_name := "example.org", data_dir := "data" }
      { files := [], dirs := [] } (by decide)).2.1,
   (prepareDirectories_clean "examplecity" "20150321-000000"
      { item_name := "example.org", data_dir := "data" }
      { files := [], dirs := [] } (by decide)).2.2.1⟩

/-- C4.  The finalizer raises — leaving the filesystem unchanged, before
any move or deletion — exactly when the uncompressed
`item_dir/warc_file_base.warc` exists; when it is absent (and the
compressed artifact is present) it moves the `.warc.gz` into `data_dir`
and recursively removes `item_dir`.  The hypothesis records that the
destination path in `data_dir` does not lie inside `item_dir`, which holds
for every staged item. -/
theorem moveFiles_finalize (item : ItemState) (fs : FS)
    (hout : underDir item.item_dir
        (item.data_dir ++ "/" ++ item.warc_file_base ++ ".warc.gz")
        = false) :
    (pathExists fs (item.item_dir ++ "/" ++ item.warc_file_base ++ ".warc")
        = true →
      moveFiles item fs = (fs, some "Please compile wget with zlib support!")) ∧
    (pathExists fs (item.item_dir ++ "/" ++ item.warc_file_base ++ ".warc")
        = false →
      ∀ e, fs.files.find? (fun f =>
          f.1 == item.item_dir ++ "/" ++ item.warc_file_base ++ ".warc.gz")
          = some e →
        ∃ fs', moveFiles item fs = (fs', none) ∧
          (item.data_dir ++ "/" ++ item.warc_file_base ++ ".warc.gz", e.2) ∈
            fs'.files ∧
          (∀ f ∈ fs'.files, underDir item.item_dir f.1 = false) ∧
          isDir fs' item.item_dir = false ∧
          (∀ d ∈ fs'.dirs, underDir item.item_dir d = false)) := by
  constructor
  · intro h
    simp [moveFiles, h]
  · intro h e he
    have hmv : moveFiles item fs =
        (rmtree
          { fs with
            files := (item.data_dir ++ "/" ++ item.warc_file_base ++
                          ".warc.gz", e.2) ::
                     List.filter
                       (fun g => ! (g.1 == item.item_dir ++ "/" ++
                                        item.warc_file_base ++ ".warc.gz" ||
                                      g.1 == item.data_dir ++ "/" ++
                                        item.warc_file_base ++ ".warc.gz"))
                       fs.files }
          item.item_dir, none) := by
      simp [moveFiles, h, renameFile, he]
    refine ⟨_, hmv, ?_, ?_, ?_, ?_⟩
    · simp only [rmtree]
      rw [List.filter_cons_of_pos (by simp [hout])]
      exact List.mem_cons_self _ _
    · intro f hf
      have := (List.mem_filter.1 hf).2
      simpa using this
    · simp only [isDir, rmtree, List.contains_eq_any_beq]
      rw [Bool.eq_false_iff]
      intro hc
      simp only [List.any_eq_true, beq_iff_eq] at hc
      obtain ⟨d, hdm, rfl⟩ := hc
      have := (List.mem_filter.1 hdm).2
      simp at this
    · intro d hdm
      have := (List.mem_filter.1 hdm).2
      simp only [Bool.not_eq_eq_eq_not, Bool.not_true,
        Bool.or_eq_false_iff] at this
      exact this.2

/-- Witness for C4: with the stray uncompressed `.warc` present the
finalizer raises and the filesystem is untouched; with only the `.warc.gz`
present it lands in `data` and `data/n` disappears. -/
theorem moveFiles_finalize_witness :
    moveFiles
        { item_name := "n", data_dir := "data", escaped_item_name := "n",
          item_dir := "data/n", warc_file_base := "base" }
        { files := [("data/n/base.warc", "")], dirs := ["data", "data/n"] } =
      ({ files := [("data/n/base.warc", "")],
         dirs := ["data", "data/n"] },
        some "Please compile wget with zlib support!") ∧
    (∃ fs', moveFiles
        { item_name := "n", data_dir := "data", escaped_item_name := "n",
          item_dir := "data/n", warc_file_base := "base" }
        { files := [("data/n/base.warc.gz", "X")],
          dirs := ["data", "data/n"] } = (fs', none) ∧
      ("data" ++ "/" ++ "base" ++ ".warc.gz", "X") ∈ fs'.files ∧
      (∀ f ∈ fs'.files, underDir "data/n" f.1 = false) ∧
      isDir fs' "data/n" = false ∧
      (∀ d ∈ fs'.dirs, underDir "data/n" d = false)) :=
  ⟨(moveFiles_finalize
      { item_name := "n", data_dir := "data", escaped_item_name := "n",
        item_dir := "data/n", warc_file_base := "base" }
      { files := [("data/n/base.warc", "")], dirs := ["data", "data/n"] }
      (by decide)).1 (by decide),
   (moveFiles_finalize
      { item_name := "n", data_dir := "data", escaped_item_name := "n",
        item_dir := "data/n", warc_file_base := "base" }
      { files := [("data/n/base.warc.gz", "X")],
        dirs := ["data", "data/n"] }
      (by decide)).2 (by decide) ("data/n/base.warc.gz", "X") (by decide)⟩
